import Mathlib

/-!
Verification of the 1buran/redmine pagination-scrolling library.

The development shallowly embeds the Go sources:

* `Pagination.NextPage` (pagination.go) — the pagination calculator;
* the current scroll engine (api.go: `Scroll`, `DecodeResp`, `ApiUrl`) as a
  state-transition function over an explicit trace of channel sends;
* the historical scroll engine (the earlier single-file api.go: `Scroll`,
  `Get`, the byte-substitution `DecodeResp`) which is still part of the
  repository sources;
* the `Date` JSON marshalling of date.go.

Go `int` is modelled as `Int`; Go integer division truncates towards zero,
which is `Int.tdiv`. Channels are modelled by the ordered list of values the
producer goroutine sends on them; closing the channels is a boolean flag set
exactly when the goroutine's loop exits (the `defer close` pair).  Errors
built with `errors.Join` are modelled as the list of sentinel error kinds
wrapped in the joined error, and `errors.Is err k` is membership.
-/

namespace Redmine

/-- Pagination metadata of one page response (pagination.go, struct
`Pagination` with JSON fields offset / limit / total_count). -/
structure Pagination where
  Offset : Int
  Limit : Int
  Total : Int
deriving DecidableEq, Repr

/-- pagination.go, `func (p Pagination) NextPage() (n int)`:

if `p.Total-p.Offset < p.Limit` return `-1`; if `p.Limit > 0` set
`n = (p.Offset+p.Limit)/p.Limit + 1` (Go division truncates towards zero,
hence `Int.tdiv`); otherwise the named return `n` keeps its zero value `0`. -/
def Pagination.NextPage (p : Pagination) : Int :=
  if p.Total - p.Offset < p.Limit then -1
  else if p.Limit > 0 then (p.Offset + p.Limit).tdiv p.Limit + 1
  else 0

/-- The sentinel error values declared with `errors.New` in the package
(api.go / the error block of the current sources). -/
inductive ErrKind where
  | JsonDecodeError
  | IoReadError
  | UrlJoinPathError
  | UrlParseError
  | ApiEndpointUrlFatalError
  | ApiNewRequestFatalError
  | HttpError
  | UnknownDataTypeError
deriving DecidableEq, Repr

/-- A Go error as the scroll loop observes it: the list of sentinel kinds
wrapped into it by `errors.Join` (outermost first). -/
abbrev GoError := List ErrKind

/-- `errors.Is err kind`: the sentinel `kind` appears somewhere in the
joined error tree. -/
def errorsIs (e : GoError) (k : ErrKind) : Bool := e.contains k

/-- Generic page-response container: the per-kind collection types
`Projects` / `Issues` / `TimeEntries` (project.go, issue.go, timeentry.go)
all consist of an `Items` list plus embedded `Pagination`; the historical
api.go used the single generic `ApiResponse[E]` of the same shape.  The item
type is a parameter because the engine never inspects the items. -/
structure ApiResponse (ι : Type) where
  Items : List ι
  pagination : Pagination
deriving DecidableEq, Repr

/-- The promoted method of the embedded struct: `r.NextPage()`. -/
def ApiResponse.NextPage (r : ApiResponse ι) : Int := r.pagination.NextPage

/-! ## The current scroll engine (api.go of the current sources, `Scroll`)

```
page := 1
for page > -1 {
    api_endpoint_url, err := ApiUrl[E](ac, page)
    if err != nil { errChan <- errors.Join(ApiEndpointUrlFatalError, err); break }
    resp, err := ac.Get(api_endpoint_url)
    if err != nil {
        errChan <- err
        switch {
        case errors.Is(err, ApiEndpointUrlFatalError), errors.Is(err, ApiNewRequestFatalError):
            return
        case errors.Is(err, HttpError):
        }
        continue
    }
    r, err := DecodeResp[E](resp)
    if err != nil { errChan <- err; continue }
    dataChan <- *r
    page = extractNextPage[E](*r)
}
```
with `defer close(dataChan); defer close(errChan)` around the loop.

One loop iteration is driven by the outcome of its interaction with the
collaborators (`ApiUrl`, `ac.Get`, `DecodeResp`); the outcome of each
iteration is an input of the model. -/

/-- Outcome of one iteration's collaborator calls: URL construction failed,
the HTTP GET failed, decoding failed, or a decoded response was obtained. -/
inductive ScrollOutcome (ι : Type) where
  | urlErr (e : GoError)
  | getErr (e : GoError)
  | decodeErr (e : GoError)
  | ok (r : ApiResponse ι)
deriving DecidableEq, Repr

/-- Observable trace of one scroll goroutine: the loop variable `page`, the
pages passed to `ac.Get` (fetch attempts), the responses returned by
`DecodeResp`, the values sent on `dataChan` and on `errChan` (in order, one
list entry per channel send), and whether the loop has exited (at which
point the deferred `close` runs on both channels). -/
structure ScrollTrace (ι : Type) where
  page : Int
  fetched : List Int
  decodedPages : List (ApiResponse ι)
  dataSent : List (ApiResponse ι)
  errSent : List GoError
  closed : Bool
deriving DecidableEq, Repr

/-- The state left by `Scroll` before its goroutine runs an iteration. -/
def initScroll {ι : Type} : ScrollTrace ι :=
  { page := 1, fetched := [], decodedPages := [], dataSent := [],
    errSent := [], closed := false }

/-- One iteration of the current `Scroll` loop body, given the outcome of
its collaborator calls. -/
def scrollIter (o : ScrollOutcome ι) (s : ScrollTrace ι) : ScrollTrace ι :=
  match o with
  | .urlErr e =>
      { s with errSent := s.errSent ++ [ErrKind.ApiEndpointUrlFatalError :: e],
               closed := true }
  | .getErr e =>
      let s' := { s with fetched := s.fetched ++ [s.page],
                         errSent := s.errSent ++ [e] }
      if errorsIs e .ApiEndpointUrlFatalError || errorsIs e .ApiNewRequestFatalError
      then { s' with closed := true }
      else s'
  | .decodeErr e =>
      { s with fetched := s.fetched ++ [s.page], errSent := s.errSent ++ [e] }
  | .ok r =>
      { s with fetched := s.fetched ++ [s.page],
               decodedPages := s.decodedPages ++ [r],
               dataSent := s.dataSent ++ [r],
               page := r.NextPage }

/-- Run the current `Scroll` loop on a list of iteration outcomes.  The
`for page > -1` condition is checked before each iteration; when it fails,
or when the body exited via `break` / `return`, the deferred closes run. -/
def runScroll (os : List (ScrollOutcome ι)) (s : ScrollTrace ι) : ScrollTrace ι :=
  match os with
  | [] => if s.closed then s else if s.page ≤ -1 then { s with closed := true } else s
  | o :: rest =>
      if s.closed then s
      else if s.page ≤ -1 then { s with closed := true }
      else runScroll rest (scrollIter o s)

/-- Run the current `Scroll` loop against an error-free source: every
iteration's `ApiUrl`, `ac.Get` and `DecodeResp` succeed and yield the page
the source reports for the requested page number. -/
def runScrollFrom (source : Int → ApiResponse ι) : Nat → ScrollTrace ι → ScrollTrace ι
  | 0, s => if s.closed then s else if s.page ≤ -1 then { s with closed := true } else s
  | fuel + 1, s =>
      if s.closed then s
      else if s.page ≤ -1 then { s with closed := true }
      else runScrollFrom source fuel (scrollIter (.ok (source s.page)) s)

/-! ## The historical scroll engine (src/api.go, `Scroll`)

```
var p int
oneMore := true
for oneMore {
    r, err := Get[E](ac, p)
    if err != nil {
        errChan <- err
        switch {
        case errors.Is(err, JsonDecodeError):
        case errors.Is(err, IoReadError):
        case errors.Is(err, ApiEndpointUrlFatalError):  break   // exits the switch only
        case errors.Is(err, ApiNewRequestFatalError):   break   // exits the switch only
        case errors.Is(err, HttpError):
        }
        continue
    }
    if r.Limit > 0 { p = (r.Offset+r.Limit)/r.Limit + 1 }
    oneMore = r.Total-r.Offset > r.Limit
    for _, v := range r.Items { dataChan <- v }
}
```
Here `dataChan` carries the individual items; each element of the trace's
`data` list is one channel send. -/

/-- Outcome of `Get[E](ac, p)` in the historical engine: a joined error or
a decoded `ApiResponse`. -/
inductive GetOutcome (ι : Type) where
  | err (e : GoError)
  | ok (r : ApiResponse ι)
deriving DecidableEq, Repr

/-- Observable trace of the historical `Scroll` goroutine.  `respOffsets`
records the offset reported by each successfully decoded response and
`pageItems` their item lists, in fetch order; `data` is the sequence of
individual item sends on `dataChan`. -/
structure ScrollV1Trace (ι : Type) where
  p : Int
  oneMore : Bool
  fetched : List Int
  respOffsets : List Int
  pageItems : List (List ι)
  data : List ι
  errSent : List GoError
  closed : Bool
deriving DecidableEq, Repr

/-- Initial state of the historical `Scroll` goroutine: `var p int` is the
zero value `0` and `oneMore := true`. -/
def initScrollV1 {ι : Type} : ScrollV1Trace ι :=
  { p := 0, oneMore := true, fetched := [], respOffsets := [], pageItems := [],
    data := [], errSent := [], closed := false }

/-- One iteration of the historical `Scroll` loop body.  On an error the
`switch` only logs: its `break` statements leave the `switch`, not the
`for` loop, so every error path reaches `continue` with `p` and `oneMore`
unchanged. -/
def scrollIterV1 (o : GetOutcome ι) (s : ScrollV1Trace ι) : ScrollV1Trace ι :=
  match o with
  | .err e =>
      { s with fetched := s.fetched ++ [s.p], errSent := s.errSent ++ [e] }
  | .ok r =>
      { s with fetched := s.fetched ++ [s.p],
               p := if r.pagination.Limit > 0
                    then (r.pagination.Offset + r.pagination.Limit).tdiv r.pagination.Limit + 1
                    else s.p,
               oneMore := r.pagination.Total - r.pagination.Offset > r.pagination.Limit,
               respOffsets := s.respOffsets ++ [r.pagination.Offset],
               pageItems := s.pageItems ++ [r.Items],
               data := s.data ++ r.Items }

/-- Run the historical `Scroll` loop on a list of `Get` outcomes. -/
def runScrollV1 (os : List (GetOutcome ι)) (s : ScrollV1Trace ι) : ScrollV1Trace ι :=
  match os with
  | [] => if s.closed then s else if s.oneMore then s else { s with closed := true }
  | o :: rest =>
      if s.closed then s
      else if s.oneMore then runScrollV1 rest (scrollIterV1 o s)
      else { s with closed := true }

/-- Run the historical `Scroll` loop against an error-free source. -/
def runScrollV1From (source : Int → ApiResponse ι) : Nat → ScrollV1Trace ι → ScrollV1Trace ι
  | 0, s => if s.closed then s else if s.oneMore then s else { s with closed := true }
  | fuel + 1, s =>
      if s.closed then s
      else if s.oneMore then runScrollV1From source fuel (scrollIterV1 (.ok (source s.p)) s)
      else { s with closed := true }

/-! ## The test source of api_test.go

The test server holds 110 items with page size 25 and serves correct
per-page offsets: a request without a `page` query parameter (which
`BuildApiUrl` emits for `p ≤ 1`) is page 1, and page `n` reports
offset `25 * (n-1)`, limit 25, total 110, with the items
`offset+1 … min (offset+25) 110` (items are modelled by their ids). -/

/-- One page of the 110-item / limit-25 test source, as the test server of
api_test.go builds it from the requested page number. -/
def testPage (p : Int) : ApiResponse Int :=
  let page := if p > 1 then p else 1
  let offset := 25 * (page - 1)
  let first := offset + 1
  let last := min (offset + 25) 110
  { Items := (List.range (last + 1 - first).toNat).map (fun i => first + (i : Int)),
    pagination := { Offset := offset, Limit := 25, Total := 110 } }

/-! ## The byte-substitution decoder (src/api.go, `DecodeResp`)

```
var b []byte
switch (interface{})(*e).(type) {
case Project:
    b = bytes.Replace(data, []byte("projects"), []byte("Items"), 1)
...
}
if err = json.Unmarshal(b, &apiResp); err != nil { ... }
```

The raw body is a character list.  `bytes.Replace(data, old, new, 1)`
replaces the leftmost occurrence of `old`.  `json.Unmarshal` is the
external collaborator; it is modelled by an executable parser for the JSON
fragment that page bodies use — objects whose values are strings (without
escape sequences), integers, booleans, or arrays of flat objects of such
atoms, with canonical (whitespace-free) layout — followed by Go's
struct-filling semantics: unknown keys are ignored, missing fields keep
their zero value, and a type mismatch fails the unmarshal.  Key matching is
exact (the modelled bodies never exercise Go's case-insensitive fallback,
nor duplicate keys). -/

/-- `bytes.Replace(s, pat, rep, 1)`: replace the leftmost occurrence of
`pat` (the uses below always have `pat ≠ []`). -/
def replaceFirst (s pat rep : List Char) : List Char :=
  match s with
  | [] => []
  | c :: cs =>
      if pat.isPrefixOf (c :: cs) then rep ++ (c :: cs).drop pat.length
      else c :: replaceFirst cs pat rep

/-- Atomic JSON values of a page body. -/
inductive JAtom where
  | jstr (s : List Char)
  | jnum (n : Int)
  | jbool (b : Bool)
deriving DecidableEq, Repr

/-- A flat JSON object: fields with atomic values (the shape of one item). -/
abbrev JFlat := List (List Char × JAtom)

/-- A top-level field value: an atom or an array of flat objects. -/
inductive JVal where
  | atom (a : JAtom)
  | arr (xs : List JFlat)
deriving DecidableEq, Repr

/-- A parsed page body: the top-level JSON object. -/
abbrev JTop := List (List Char × JVal)

/-- Read a string body up to the closing quote (escape-free fragment). -/
def parseStrBody : List Char → Option (List Char × List Char)
  | [] => none
  | c :: cs =>
      if c = '"' then some ([], cs)
      else match parseStrBody cs with
           | none => none
           | some (s, r) => some (c :: s, r)

/-- Take the leading run of decimal digits. -/
def takeDigits : List Char → List Char × List Char
  | [] => ([], [])
  | c :: cs =>
      if c.isDigit then
        match takeDigits cs with
        | (ds, r) => (c :: ds, r)
      else ([], c :: cs)

/-- Numeric value of a decimal digit character. -/
def charVal (c : Char) : Nat := c.toNat - 48

/-- Value of a digit string, most significant first. -/
def digitsVal (ds : List Char) : Nat := ds.foldl (fun a c => 10 * a + charVal c) 0

/-- Parse an optionally signed decimal integer. -/
def parseNum (cs : List Char) : Option (Int × List Char) :=
  match cs with
  | [] => none
  | c :: rest =>
      if c = '-' then
        match takeDigits rest with
        | ([], _) => none
        | (ds, r) => some (-(digitsVal ds : Int), r)
      else
        match takeDigits (c :: rest) with
        | ([], _) => none
        | (ds, r) => some ((digitsVal ds : Int), r)

/-- Parse an atomic value: string, `true`, `false`, or number. -/
def parseAtom (cs : List Char) : Option (JAtom × List Char) :=
  match cs with
  | [] => none
  | c :: cs' =>
      if c = '"' then
        match parseStrBody cs' with
        | none => none
        | some (s, r) => some (.jstr s, r)
      else if c = 't' then
        match cs' with
        | 'r' :: 'u' :: 'e' :: r => some (.jbool true, r)
        | _ => none
      else if c = 'f' then
        match cs' with
        | 'a' :: 'l' :: 's' :: 'e' :: r => some (.jbool false, r)
        | _ => none
      else
        match parseNum (c :: cs') with
        | none => none
        | some (n, r) => some (.jnum n, r)

/-- Parse the fields of a flat object, positioned after the opening brace
on a nonempty field list; consumes the closing brace. -/
def parseFlatFields : Nat → List Char → Option (JFlat × List Char)
  | 0, _ => none
  | fuel + 1, cs =>
      match cs with
      | '"' :: cs1 =>
          match parseStrBody cs1 with
          | none => none
          | some (k, cs2) =>
              match cs2 with
              | ':' :: cs3 =>
                  match parseAtom cs3 with
                  | none => none
                  | some (a, cs4) =>
                      match cs4 with
                      | ',' :: cs5 =>
                          match parseFlatFields fuel cs5 with
                          | none => none
                          | some (fs, r) => some ((k, a) :: fs, r)
                      | '\x7d' :: cs5 => some ([(k, a)], cs5)
                      | _ => none
              | _ => none
      | _ => none

/-- Parse a flat object (an item of a collection array). -/
def parseFlat (fuel : Nat) (cs : List Char) : Option (JFlat × List Char) :=
  match cs with
  | '\x7b' :: '\x7d' :: rest => some ([], rest)
  | '\x7b' :: rest => parseFlatFields fuel rest
  | _ => none

/-- Parse the comma-separated items of a nonempty array of flat objects;
consumes the closing bracket. -/
def parseArrItems : Nat → List Char → Option (List JFlat × List Char)
  | 0, _ => none
  | fuel + 1, cs =>
      match parseFlat fuel cs with
      | none => none
      | some (f, cs1) =>
          match cs1 with
          | ',' :: cs2 =>
              match parseArrItems fuel cs2 with
              | none => none
              | some (xs, r) => some (f :: xs, r)
          | ']' :: cs2 => some ([f], cs2)
          | _ => none

/-- Parse an array of flat objects. -/
def parseArr (fuel : Nat) (cs : List Char) : Option (List JFlat × List Char) :=
  match cs with
  | '[' :: ']' :: rest => some ([], rest)
  | '[' :: rest => parseArrItems fuel rest
  | _ => none

/-- Parse a top-level field value. -/
def parseVal (fuel : Nat) (cs : List Char) : Option (JVal × List Char) :=
  match cs with
  | '[' :: _ =>
      match parseArr fuel cs with
      | none => none
      | some (xs, r) => some (.arr xs, r)
  | _ =>
      match parseAtom cs with
      | none => none
      | some (a, r) => some (.atom a, r)

/-- Parse the fields of the top-level object, positioned after the opening
brace on a nonempty field list; consumes the closing brace. -/
def parseTopFields : Nat → List Char → Option (JTop × List Char)
  | 0, _ => none
  | fuel + 1, cs =>
      match cs with
      | '"' :: cs1 =>
          match parseStrBody cs1 with
          | none => none
          | some (k, cs2) =>
              match cs2 with
              | ':' :: cs3 =>
                  match parseVal fuel cs3 with
                  | none => none
                  | some (v, cs4) =>
                      match cs4 with
                      | ',' :: cs5 =>
                          match parseTopFields fuel cs5 with
                          | none => none
                          | some (fs, r) => some ((k, v) :: fs, r)
                      | '\x7d' :: cs5 => some ([(k, v)], cs5)
                      | _ => none
              | _ => none
      | _ => none

/-- Parse a whole page body: one top-level object consuming the entire
input. -/
def parseBody (cs : List Char) : Option JTop :=
  match cs with
  | '\x7b' :: '\x7d' :: rest => if rest = [] then some [] else none
  | '\x7b' :: rest =>
      match parseTopFields (cs.length + 1) rest with
      | some (top, []) => some top
      | _ => none
  | _ => none

/-- A Redmine project entity (api.go struct `Project`; JSON tags id, name,
identifier, description, is_public). -/
structure Project where
  Id : Int
  Name : List Char
  Ident : List Char
  Desc : List Char
  IsPublic : Bool
deriving DecidableEq, Repr

/-- First binding of a key among the fields of a flat object. -/
def lookupAtom (k : List Char) : JFlat → Option JAtom
  | [] => none
  | (k', a) :: fs => if k' = k then some a else lookupAtom k fs

/-- First binding of a key among the top-level fields. -/
def lookupKey (k : List Char) : JTop → Option JVal
  | [] => none
  | (k', v) :: fs => if k' = k then some v else lookupKey k fs

/-- Go struct filling for an `int` field: absent keeps the zero value,
non-numeric fails. -/
def asIntAtom : Option JAtom → Option Int
  | none => some 0
  | some (.jnum n) => some n
  | some _ => none

/-- Go struct filling for a `string` field. -/
def asStrAtom : Option JAtom → Option (List Char)
  | none => some []
  | some (.jstr s) => some s
  | some _ => none

/-- Go struct filling for a `bool` field. -/
def asBoolAtom : Option JAtom → Option Bool
  | none => some false
  | some (.jbool b) => some b
  | some _ => none

/-- Decode one item object into a `Project`. -/
def decodeProject (f : JFlat) : Option Project :=
  match asIntAtom (lookupAtom ("id".toList) f),
        asStrAtom (lookupAtom ("name".toList) f),
        asStrAtom (lookupAtom ("identifier".toList) f),
        asStrAtom (lookupAtom ("description".toList) f),
        asBoolAtom (lookupAtom ("is_public".toList) f) with
  | some i, some n, some idn, some d, some p => some ⟨i, n, idn, d, p⟩
  | _, _, _, _, _ => none

/-- Decode the elements of the collection array. -/
def decodeItems : List JFlat → Option (List Project)
  | [] => some []
  | f :: fs =>
      match decodeProject f, decodeItems fs with
      | some p, some ps => some (p :: ps)
      | _, _ => none

/-- Go struct filling for the `Items []Project` field. -/
def asItems : Option JVal → Option (List Project)
  | none => some []
  | some (.arr xs) => decodeItems xs
  | some _ => none

/-- Go struct filling for an `int` field bound at top level. -/
def asIntVal : Option JVal → Option Int
  | none => some 0
  | some (.atom (.jnum n)) => some n
  | some _ => none

/-- `json.Unmarshal(b, &apiResp)` into `ApiResponse[Project]`: the `Items`
list plus the embedded `Pagination` fields offset / limit / total_count. -/
def unmarshalApiResp (t : JTop) : Option (ApiResponse Project) :=
  match asItems (lookupKey ("Items".toList) t),
        asIntVal (lookupKey ("offset".toList) t),
        asIntVal (lookupKey ("limit".toList) t),
        asIntVal (lookupKey ("total_count".toList) t) with
  | some its, some o, some l, some tt =>
      some { Items := its, pagination := { Offset := o, Limit := l, Total := tt } }
  | _, _, _, _ => none

/-- src/api.go `DecodeResp` for the entity kind with collection key `key`
(`"projects"`, `"issues"` or `"time_entries"`): replace the leftmost
occurrence of the key text by `Items`, then `json.Unmarshal`. -/
def DecodeResp (key : List Char) (data : List Char) : Option (ApiResponse Project) :=
  match parseBody (replaceFirst data key ("Items".toList)) with
  | none => none
  | some t => unmarshalApiResp t

/-! ## The modelled family of well-formed page bodies

A body carries one free-text field rendered before the collection key, the
collection of items (modelled by their ids, each rendered as an object with
an `id` field), and the pagination metadata:

`{"note":"…","<key>":[{"id":…},…],"offset":…,"limit":…,"total_count":…}`. -/

/-- Decimal digit character. -/
def digitChar (d : Nat) : Char := Char.ofNat (48 + d)

/-- Decimal rendering of a natural number (fuel-driven; `natToChars`
supplies enough fuel). -/
def natToCharsAux : Nat → Nat → List Char
  | 0, _ => []
  | fuel + 1, n =>
      if n < 10 then [digitChar n]
      else natToCharsAux fuel (n / 10) ++ [digitChar (n % 10)]

/-- Decimal rendering of a natural number. -/
def natToChars (n : Nat) : List Char := natToCharsAux (n + 1) n

/-- Decimal rendering of an integer. -/
def renderInt (n : Int) : List Char :=
  if n < 0 then '-' :: natToChars (-n).toNat else natToChars n.toNat

/-- Render one item as its JSON object. -/
def renderItem (n : Int) : List Char :=
  ("\x7b\"id\":".toList) ++ renderInt n ++ ("\x7d".toList)

/-- Render the comma-separated items of the collection array. -/
def renderItemsCore : List Int → List Char
  | [] => []
  | [x] => renderItem x
  | x :: y :: xs => renderItem x ++ ',' :: renderItemsCore (y :: xs)

/-- Render the collection array. -/
def renderItems (xs : List Int) : List Char :=
  '[' :: (renderItemsCore xs ++ [']'])

/-- A member of the modelled body family. -/
structure PageBody where
  note : List Char
  items : List Int
  offset : Int
  limit : Int
  total : Int

/-- The rendered text before the collection key. -/
def bodyPre (b : PageBody) : List Char :=
  ("\x7b\"note\":\"".toList) ++ b.note ++ ("\",\"".toList)

/-- The rendered text from the quote closing the collection key onwards. -/
def bodySuf (b : PageBody) : List Char :=
  ("\":".toList) ++ renderItems b.items ++
  (",\"offset\":".toList) ++ renderInt b.offset ++
  (",\"limit\":".toList) ++ renderInt b.limit ++
  (",\"total_count\":".toList) ++ renderInt b.total ++ ("\x7d".toList)

/-- Render a page body with the given collection key. -/
def renderBody (key : List Char) (b : PageBody) : List Char :=
  bodyPre b ++ key ++ bodySuf b

/-- The free-text field is representable in the escape-free string
fragment. -/
def PageBody.valid (b : PageBody) : Prop :=
  '"' ∉ b.note ∧ '\\' ∉ b.note

instance (b : PageBody) : Decidable b.valid := by
  unfold PageBody.valid
  infer_instance

/-- The value of the parsed top-level object of a rendered body whose
collection key is `key`. -/
def bodyTop (key : List Char) (b : PageBody) : JTop :=
  [ ("note".toList, .atom (.jstr b.note)),
    (key, .arr (b.items.map (fun n => [("id".toList, JAtom.jnum n)]))),
    ("offset".toList, .atom (.jnum b.offset)),
    ("limit".toList, .atom (.jnum b.limit)),
    ("total_count".toList, .atom (.jnum b.total)) ]

/-- The input continues with a non-digit (or ends): the boundary after a
rendered number. -/
def noDigitHead : List Char → Prop
  | [] => True
  | c :: _ => c.isDigit = false

instance : ∀ cs, Decidable (noDigitHead cs)
  | [] => by
      unfold noDigitHead
      infer_instance
  | _ :: _ => by
      unfold noDigitHead
      infer_instance

/-- The parsed form of one rendered item. -/
def itemFlat (n : Int) : JFlat := [("id".toList, JAtom.jnum n)]

/-- The `Project` Go obtains from one rendered item: only `id` is present,
every other field keeps its zero value. -/
def projOf (n : Int) : Project := ⟨n, [], [], [], false⟩

/-- A witness body for the round-trip: a note free of the collection key,
two items, and the pagination of the first test page. -/
def roundTripBody : PageBody :=
  { note := "hello".toList, items := [1, 2], offset := 0, limit := 25, total := 110 }

/-- A body whose free-text field contains the collection key text before
the collection key itself. -/
def fragileBody : PageBody :=
  { note := "all projects are fine".toList, items := [7],
    offset := 0, limit := 25, total := 110 }

/-! ## Date (date.go)

`Date` wraps `time.Time`; a `time.Time` always denotes a valid calendar
date, modelled as year / month / day with the calendar validity predicate.

* `MarshalJSON` is `fmt.Sprintf("%q", d.Time.Format("2006-01-02"))`: the
  layout `2006` prints the year zero-padded to width 4 (longer years print
  all their digits, negative years print a minus sign first), `01` and `02`
  print month and day zero-padded to width 2; `%q` wraps the digits-and-
  hyphens text in plain quotes (nothing in it needs escaping).  It never
  returns an error.
* `UnmarshalJSON` is `time.Parse("2006-01-02", string(bytes.Trim(b, "\"")))`:
  the trim removes all leading and trailing quote characters; the layout
  `2006` consumes exactly four digit characters, the literal `-` must
  follow, `01` and `02` consume two digits each, trailing input is an
  error, and the month and day ranges are validated (February respecting
  leap years).  Failure is modelled as `none` (the Go code wraps it in
  `JsonDecodeError`). -/

structure Date where
  year : Int
  month : Nat
  day : Nat
deriving DecidableEq, Repr

/-- Gregorian leap-year rule, as Go's `time` package applies it (`%` is
Go's truncating remainder; the `= 0` / `≠ 0` tests agree with the
mathematical remainder used here). -/
def isLeap (y : Int) : Bool := y % 4 == 0 && (y % 100 != 0 || y % 400 == 0)

/-- Days in a month, respecting leap years. -/
def daysInMonth (y : Int) (m : Nat) : Nat :=
  if m = 2 then (if isLeap y then 29 else 28)
  else if m = 4 ∨ m = 6 ∨ m = 9 ∨ m = 11 then 30
  else 31

/-- The dates a `time.Time` can denote. -/
def Date.validDate (d : Date) : Prop :=
  1 ≤ d.month ∧ d.month ≤ 12 ∧ 1 ≤ d.day ∧ d.day ≤ daysInMonth d.year d.month

instance (d : Date) : Decidable d.validDate := by
  unfold Date.validDate
  infer_instance

/-- Go `appendInt(b, n, w)` for a natural number: decimal digits, left
zero-padded to width `w` (longer numbers keep all digits). -/
def padNat (w n : Nat) : List Char :=
  List.replicate (w - (natToChars n).length) '0' ++ natToChars n

/-- The year as the layout `2006` prints it. -/
def formatYear (y : Int) : List Char :=
  if y < 0 then '-' :: padNat 4 (-y).toNat else padNat 4 y.toNat

/-- `d.Time.Format("2006-01-02")`, which is also `Date.String`. -/
def formatDate (d : Date) : List Char :=
  formatYear d.year ++ '-' :: (padNat 2 d.month ++ '-' :: padNat 2 d.day)

/-- date.go `MarshalJSON`. -/
def Date.MarshalJSON (d : Date) : List Char := '"' :: formatDate d ++ ['"']

/-- `bytes.Trim(b, "\"")`: strip all leading and trailing quotes. -/
def trimQuotes (s : List Char) : List Char :=
  ((s.dropWhile (fun c => c = '"')).reverse.dropWhile (fun c => c = '"')).reverse

/-- `time.Parse("2006-01-02", s)`. -/
def parseDate (s : List Char) : Option Date :=
  match s with
  | y1 :: y2 :: y3 :: y4 :: '-' :: m1 :: m2 :: '-' :: d1 :: d2 :: [] =>
      if y1.isDigit && y2.isDigit && y3.isDigit && y4.isDigit &&
         m1.isDigit && m2.isDigit && d1.isDigit && d2.isDigit then
        if 1 ≤ digitsVal [m1, m2] ∧ digitsVal [m1, m2] ≤ 12 ∧
           1 ≤ digitsVal [d1, d2] ∧
           digitsVal [d1, d2] ≤ daysInMonth (digitsVal [y1, y2, y3, y4] : Nat)
             (digitsVal [m1, m2]) then
          some ⟨(digitsVal [y1, y2, y3, y4] : Nat), digitsVal [m1, m2],
            digitsVal [d1, d2]⟩
        else none
      else none
  | _ => none

/-- date.go `UnmarshalJSON`. -/
def Date.UnmarshalJSON (s : List Char) : Option Date := parseDate (trimQuotes s)

/-- `runScroll` leaves a state whose loop has exited unchanged: after
`break` or `return` no further iteration runs. -/
theorem runScroll_closed (os : List (ScrollOutcome ι)) (s : ScrollTrace ι)
    (h : s.closed = true) : runScroll os s = s := by
  cases os <;> simp [runScroll, h]

/-- C3: for offset ≥ 0, limit > 0, total ≥ 0 with total - offset ≥ limit the
pagination calculator returns `(offset+limit)/limit + 1` (integer division,
here the mathematical Euclidean division, with which Go's truncating
division agrees on these non-negative operands); and whenever
total - offset < limit it returns the terminal signal `-1`. -/
theorem NextPage_formula (off lim tot : Int) :
    (0 ≤ off → 0 < lim → 0 ≤ tot → lim ≤ tot - off →
      (Pagination.mk off lim tot).NextPage = (off + lim) / lim + 1) ∧
    (tot - off < lim → (Pagination.mk off lim tot).NextPage = -1) := by
  constructor
  · intro ho hl _ hrest
    have hnot : ¬ (tot - off < lim) := not_lt.mpr hrest
    have htd : (off + lim).tdiv lim = (off + lim) / lim :=
      Int.tdiv_eq_ediv (by omega) (le_of_lt hl)
    simp [Pagination.NextPage, hnot, hl, htd]
  · intro h
    simp [Pagination.NextPage, h]

/-- Witness for C3 at the concrete pages of the 110-item / limit-25 source:
page offset 0 yields next page 2, and the last page (offset 100) is
terminal. -/
theorem NextPage_formula_witness :
    (Pagination.mk 0 25 110).NextPage = (0 + 25) / 25 + 1 ∧
    (Pagination.mk 100 25 110).NextPage = -1 :=
  ⟨(NextPage_formula 0 25 110).1 (by decide) (by decide) (by decide) (by decide),
   (NextPage_formula 100 25 110).2 (by decide)⟩

/-- C4, counterexample: with limit = 0, offset = 0, total = 0 the calculator
returns `0`, which is not the terminal signal `-1`, and the scroll loop
condition `page > -1` does not stop on it (the loop state stays open). -/
theorem NextPage_zero_limit_cex :
    (Pagination.mk 0 0 0).NextPage = 0 ∧ (0 : Int) ≠ -1 ∧
    (runScroll (ι := Int) [] { initScroll with page := 0 }).closed = false := by
  decide

/-- C4 as amended: with limit = 0 the calculator never divides (its result
is produced by the zero-value fallthrough, so no division by zero occurs):
for offset ≥ 0 and total ≥ 0 it returns `-1` only when total - offset < 0,
and returns `0` — which is not the terminal signal — whenever
offset ≤ total. -/
theorem NextPage_zero_limit (off tot : Int) (ho : 0 ≤ off) (ht : 0 ≤ tot) :
    (Pagination.mk off 0 tot).NextPage = (if tot - off < 0 then -1 else 0) ∧
    (off ≤ tot → (Pagination.mk off 0 tot).NextPage = 0) := by
  constructor
  · by_cases h : tot - off < 0 <;> simp [Pagination.NextPage, h]
  · intro hle
    have h : ¬ (tot - off < 0) := by omega
    simp [Pagination.NextPage, h]

/-- Witness for C4 as amended, at offset = 0, total = 0. -/
theorem NextPage_zero_limit_witness :
    (Pagination.mk 0 0 0).NextPage = (if (0 : Int) - 0 < 0 then -1 else 0) ∧
    (Pagination.mk 0 0 0).NextPage = 0 :=
  ⟨(NextPage_zero_limit 0 0 (by decide) (by decide)).1,
   (NextPage_zero_limit 0 0 (by decide) (by decide)).2 (by decide)⟩

/-- C9: for offset ≥ 0 and limit > 0 the pagination calculator returns
either the terminal sentinel `-1` or a page index ≥ 2; it never returns
0 or 1, so a successfully decoded page never sends the engine back to the
first page. -/
theorem NextPage_ge_two (off lim tot : Int) (ho : 0 ≤ off) (hl : 0 < lim) :
    (Pagination.mk off lim tot).NextPage = -1 ∨
    (2 ≤ (Pagination.mk off lim tot).NextPage ∧
      (Pagination.mk off lim tot).NextPage ≠ 0 ∧
      (Pagination.mk off lim tot).NextPage ≠ 1) := by
  by_cases h : tot - off < lim
  · left
    simp [Pagination.NextPage, h]
  · right
    have htd : (off + lim).tdiv lim = (off + lim) / lim :=
      Int.tdiv_eq_ediv (by omega) (le_of_lt hl)
    have hdiv : 1 ≤ (off + lim) / lim := by
      rw [Int.le_ediv_iff_mul_le hl]
      omega
    have : (Pagination.mk off lim tot).NextPage = (off + lim) / lim + 1 := by
      simp [Pagination.NextPage, h, hl, htd]
    rw [this]
    omega

/-- Witness for C9 at offset 0, limit 25, total 110. -/
theorem NextPage_ge_two_witness :
    (Pagination.mk 0 25 110).NextPage = -1 ∨
    (2 ≤ (Pagination.mk 0 25 110).NextPage ∧
      (Pagination.mk 0 25 110).NextPage ≠ 0 ∧
      (Pagination.mk 0 25 110).NextPage ≠ 1) :=
  NextPage_ge_two 0 25 110 (by decide) (by decide)

/-- C1: against the 110-item / limit-25 source with correct per-page
offsets, one scroll operation performs exactly 5 page fetches whose
reported offsets are 0, 25, 50, 75, 100, delivers exactly the 110 items
with ids 1..110 in ascending order on the data channel (the historical
engine sends them one by one; the current engine sends the five decoded
pages, whose concatenated item lists are the same ascending sequence), no
error is sent, and the loop then exits, closing both channels. -/
theorem scroll_testSource_scenario :
    ((runScrollV1From testPage 6 initScrollV1).fetched.length = 5 ∧
     (runScrollV1From testPage 6 initScrollV1).respOffsets = [0, 25, 50, 75, 100] ∧
     (runScrollV1From testPage 6 initScrollV1).data
       = (List.range 110).map (fun i => (i : Int) + 1) ∧
     (runScrollV1From testPage 6 initScrollV1).errSent = [] ∧
     (runScrollV1From testPage 6 initScrollV1).closed = true) ∧
    ((runScrollFrom testPage 6 initScroll).fetched.length = 5 ∧
     (runScrollFrom testPage 6 initScroll).decodedPages.map (fun r => r.pagination.Offset)
       = [0, 25, 50, 75, 100] ∧
     ((runScrollFrom testPage 6 initScroll).dataSent.map ApiResponse.Items).flatten
       = (List.range 110).map (fun i => (i : Int) + 1) ∧
     (runScrollFrom testPage 6 initScroll).errSent = [] ∧
     (runScrollFrom testPage 6 initScroll).closed = true) := by
  decide

/-- C2, counterexample: an error carrying only `ApiNewRequestFatalError` —
which is not an `ApiEndpointUrlFatalError` — also terminates the current
scroll loop (the `switch` case `errors.Is(err, ApiEndpointUrlFatalError),
errors.Is(err, ApiNewRequestFatalError): return`), refuting "only
ApiEndpointUrlFatalError terminates the scroll loop". -/
theorem scroll_newRequestFatal_terminates_cex :
    (runScroll (ι := Int) [.getErr [ErrKind.ApiNewRequestFatalError]] initScroll).closed
      = true ∧
    errorsIs [ErrKind.ApiNewRequestFatalError] .ApiEndpointUrlFatalError = false ∧
    (runScroll (ι := Int) [.getErr [ErrKind.ApiNewRequestFatalError]] initScroll).errSent
      = [[ErrKind.ApiNewRequestFatalError]] := by
  decide

/-- C2 as amended: if endpoint-URL construction fails, the scroll operation
sends exactly one error — an `ApiEndpointUrlFatalError` — to the error
channel, makes no fetch attempt at all afterwards (whatever outcomes would
follow), sends no data, and closes both channels; every error outcome of an
iteration is sent to the error channel (none swallowed); and the loop is
terminated by an error exactly when the error is one of the two fatal kinds
`ApiEndpointUrlFatalError` or `ApiNewRequestFatalError` (decode errors
never terminate it). -/
theorem scroll_error_policy :
    (∀ (e : GoError) (os : List (ScrollOutcome Int)),
      (runScroll (.urlErr e :: os) initScroll).errSent
          = [ErrKind.ApiEndpointUrlFatalError :: e] ∧
      errorsIs (ErrKind.ApiEndpointUrlFatalError :: e) .ApiEndpointUrlFatalError = true ∧
      (runScroll (.urlErr e :: os) initScroll).fetched = [] ∧
      (runScroll (.urlErr e :: os) initScroll).dataSent = [] ∧
      (runScroll (.urlErr e :: os) initScroll).closed = true) ∧
    (∀ (e : GoError) (s : ScrollTrace Int),
      (scrollIter (.getErr e) s).errSent = s.errSent ++ [e] ∧
      (scrollIter (.decodeErr e) s).errSent = s.errSent ++ [e] ∧
      ((scrollIter (.getErr e) s).closed = true ↔
        (s.closed = true ∨ errorsIs e .ApiEndpointUrlFatalError = true ∨
          errorsIs e .ApiNewRequestFatalError = true)) ∧
      (scrollIter (.decodeErr e) s).closed = s.closed) := by
  constructor
  · intro e os
    have hstep : runScroll (.urlErr e :: os) (initScroll (ι := Int))
        = runScroll os (scrollIter (.urlErr e) initScroll) := by
      simp [runScroll, initScroll]
    have hclosed : (scrollIter (ScrollOutcome.urlErr (ι := Int) e) initScroll).closed = true := by
      simp [scrollIter]
    rw [hstep, runScroll_closed _ _ hclosed]
    simp [scrollIter, initScroll, errorsIs]
  · intro e s
    refine ⟨?_, by simp [scrollIter], ?_, by simp [scrollIter]⟩
    · cases hf : (errorsIs e .ApiEndpointUrlFatalError
          || errorsIs e .ApiNewRequestFatalError) <;> simp [scrollIter, hf]
    by_cases hfatal : errorsIs e .ApiEndpointUrlFatalError = true ∨
        errorsIs e .ApiNewRequestFatalError = true
    · constructor
      · intro _
        right
        exact hfatal
      · intro _
        have : (errorsIs e .ApiEndpointUrlFatalError
            || errorsIs e .ApiNewRequestFatalError) = true := by
          rcases hfatal with h | h <;> simp [h]
        simp [scrollIter, this]
    · push_neg at hfatal
      have h1 : errorsIs e .ApiEndpointUrlFatalError = false := by
        simpa using hfatal.1
      have h2 : errorsIs e .ApiNewRequestFatalError = false := by
        simpa using hfatal.2
      simp [scrollIter, h1, h2]

/-- C5: when a fetch attempt fails with `HttpError`, or a decode attempt
fails with `JsonDecodeError` or `IoReadError`, the error is sent to the
error channel, nothing is sent to the data channel for that attempt, the
loop stays open, and the next fetch attempt requests the same page index
(the page does not advance on error). -/
theorem scroll_retry_same_page (s : ScrollTrace Int) (e : GoError) :
    (errorsIs e .HttpError = true →
     errorsIs e .ApiEndpointUrlFatalError = false →
     errorsIs e .ApiNewRequestFatalError = false →
      (scrollIter (.getErr e) s).page = s.page ∧
      (scrollIter (.getErr e) s).dataSent = s.dataSent ∧
      (scrollIter (.getErr e) s).errSent = s.errSent ++ [e] ∧
      (scrollIter (.getErr e) s).closed = s.closed ∧
      (∀ r : ApiResponse Int,
        (scrollIter (.ok r) (scrollIter (.getErr e) s)).fetched
          = s.fetched ++ [s.page, s.page])) ∧
    ((errorsIs e .JsonDecodeError = true ∨ errorsIs e .IoReadError = true) →
      (scrollIter (.decodeErr e) s).page = s.page ∧
      (scrollIter (.decodeErr e) s).dataSent = s.dataSent ∧
      (scrollIter (.decodeErr e) s).errSent = s.errSent ++ [e] ∧
      (scrollIter (.decodeErr e) s).closed = s.closed ∧
      (∀ r : ApiResponse Int,
        (scrollIter (.ok r) (scrollIter (.decodeErr e) s)).fetched
          = s.fetched ++ [s.page, s.page])) := by
  constructor
  · intro _ h1 h2
    refine ⟨by simp [scrollIter, h1, h2], by simp [scrollIter, h1, h2],
      by simp [scrollIter, h1, h2], by simp [scrollIter, h1, h2], ?_⟩
    intro r
    simp [scrollIter, h1, h2]
  · intro _
    refine ⟨by simp [scrollIter], by simp [scrollIter], by simp [scrollIter],
      by simp [scrollIter], ?_⟩
    intro r
    simp [scrollIter]

/-- Witness for C5: a pure `HttpError` on the first attempt of a fresh
scroll leaves the page at 1, sends no data, sends exactly that error, keeps
the loop open, and the next two fetch attempts both request page 1;
likewise for a pure `JsonDecodeError` decode failure. -/
theorem scroll_retry_same_page_witness :
    ((scrollIter (.getErr [ErrKind.HttpError]) (initScroll (ι := Int))).page = 1 ∧
     (scrollIter (.ok (testPage 1)) (scrollIter (.getErr [ErrKind.HttpError])
        (initScroll (ι := Int)))).fetched = [1, 1]) ∧
    ((scrollIter (.decodeErr [ErrKind.JsonDecodeError]) (initScroll (ι := Int))).page = 1) := by
  have h := scroll_retry_same_page (initScroll (ι := Int)) [ErrKind.HttpError]
  have h1 := h.1 (by decide) (by decide) (by decide)
  have h2 := (scroll_retry_same_page (initScroll (ι := Int)) [ErrKind.JsonDecodeError]).2
    (Or.inl (by decide))
  refine ⟨⟨?_, ?_⟩, ?_⟩
  · exact h1.1.trans rfl
  · exact (h1.2.2.2.2 (testPage 1)).trans rfl
  · exact h2.1.trans rfl

/-- C6: the historical engine (src/api.go) sends every item of each decoded
page individually to the data channel, one send per item, in the page's own
order, so the full data-channel sequence is the concatenation of the pages'
item lists in fetch order; in the current engine (whose data channel
carries whole page responses) the sequence of sent values is exactly the
sequence of decoded pages in fetch order, each sent once with its item list
intact. -/
theorem scroll_emits_items_in_page_order :
    (∀ (os : List (GetOutcome Int)) (s : ScrollV1Trace Int),
      s.data = s.pageItems.flatten →
      (runScrollV1 os s).data = (runScrollV1 os s).pageItems.flatten) ∧
    (∀ (os : List (ScrollOutcome Int)) (s : ScrollTrace Int),
      s.dataSent = s.decodedPages →
      (runScroll os s).dataSent = (runScroll os s).decodedPages) := by
  constructor
  · intro os
    induction os with
    | nil =>
        intro s h
        by_cases hc : s.closed = true <;> by_cases hm : s.oneMore = true <;>
          simp [runScrollV1, hc, hm, h]
    | cons o rest ih =>
        intro s h
        by_cases hc : s.closed = true
        · simp [runScrollV1, hc, h]
        · by_cases hm : s.oneMore = true
          · have hinv : (scrollIterV1 o s).data = (scrollIterV1 o s).pageItems.flatten := by
              cases o <;> simp [scrollIterV1, h]
            simp only [runScrollV1, hc, hm, if_false, if_true, Bool.not_eq_true] at *
            simpa [hc, hm] using ih (scrollIterV1 o s) hinv
          · simp [runScrollV1, hc, hm, h]
  · intro os
    induction os with
    | nil =>
        intro s h
        by_cases hc : s.closed = true <;> by_cases hp : s.page ≤ -1 <;>
          simp [runScroll, hc, hp, h]
    | cons o rest ih =>
        intro s h
        by_cases hc : s.closed = true
        · simp [runScroll, hc, h]
        · by_cases hp : s.page ≤ -1
          · simp [runScroll, hc, hp, h]
          · have hinv : (scrollIter o s).dataSent = (scrollIter o s).decodedPages := by
              cases o with
              | getErr e =>
                  by_cases hf : (errorsIs e .ApiEndpointUrlFatalError
                      || errorsIs e .ApiNewRequestFatalError) = true <;>
                    simp [scrollIter, hf, h]
              | _ => simp [scrollIter, h]
            simpa [runScroll, hc, hp] using ih (scrollIter o s) hinv

/-- Witness for C6: one decoded page of two items on the historical engine
yields the two items, in page order, as the data sequence; the current
engine run of the full test source sends its decoded pages unchanged. -/
theorem scroll_emits_items_in_page_order_witness :
    (runScrollV1 [.ok (testPage 4)] initScrollV1).data
      = (runScrollV1 [.ok (testPage 4)] initScrollV1).pageItems.flatten ∧
    (runScrollFrom testPage 6 initScroll).dataSent
      = (runScrollFrom testPage 6 initScroll).decodedPages := by
  constructor
  · exact scroll_emits_items_in_page_order.1 [.ok (testPage 4)] initScrollV1 rfl
  · decide


/-- Equation: `replaceFirst` at a position where `pat` matches. -/
theorem replaceFirst_cons_pos (c : Char) (cs pat rep : List Char)
    (h : pat.isPrefixOf (c :: cs) = true) :
    replaceFirst (c :: cs) pat rep = rep ++ (c :: cs).drop pat.length := by
  simp [replaceFirst, h]

/-- Equation: `replaceFirst` at a position where `pat` does not match. -/
theorem replaceFirst_cons_neg (c : Char) (cs pat rep : List Char)
    (h : pat.isPrefixOf (c :: cs) = false) :
    replaceFirst (c :: cs) pat rep = c :: replaceFirst cs pat rep := by
  simp [replaceFirst, h]

/-- Right-associated form of the key-replacement lemma. -/
theorem replaceFirst_at_key_assoc (x z pat rep : List Char) (hpat : pat ≠ [])
    (h : ∀ i, i < x.length → pat.isPrefixOf ((x ++ (pat ++ z)).drop i) = false) :
    replaceFirst (x ++ (pat ++ z)) pat rep = x ++ (rep ++ z) := by
  induction x with
  | nil =>
      obtain ⟨p, pt, rfl⟩ : ∃ p pt, pat = p :: pt := by
        cases pat with
        | nil => exact absurd rfl hpat
        | cons p pt => exact ⟨p, pt, rfl⟩
      have hpref : (p :: pt).isPrefixOf (p :: (pt ++ z)) = true := by
        rw [ List.isPrefixOf_iff_prefix]
        exact ⟨z, by simp⟩
      rw [show ([] : List Char) ++ ((p :: pt) ++ z) = p :: (pt ++ z) by simp]
      rw [replaceFirst_cons_pos _ _ _ _ hpref]
      rw [show (p :: pt).length = pt.length + 1 from rfl]
      rw [show List.drop (pt.length + 1) (p :: (pt ++ z)) = List.drop pt.length (pt ++ z)
        from rfl]
      rw [List.drop_left]
      simp
  | cons c x ih =>
      have h0 : pat.isPrefixOf (c :: (x ++ (pat ++ z))) = false := by
        have := h 0 (by simp)
        simpa using this
      rw [show (c :: x) ++ (pat ++ z) = c :: (x ++ (pat ++ z)) from rfl]
      rw [replaceFirst_cons_neg _ _ _ _ h0]
      rw [show (c :: x) ++ (rep ++ z) = c :: (x ++ (rep ++ z)) from rfl]
      congr 1
      refine ih ?_
      intro i hi
      have := h (i + 1) (by simpa using Nat.succ_lt_succ hi)
      simpa using this

/-- Replacing the leftmost occurrence of `pat` in `x ++ pat ++ z` rewrites
exactly the explicit occurrence, provided no occurrence of `pat` starts
inside `x`. -/
theorem replaceFirst_at_key (x z pat rep : List Char) (hpat : pat ≠ [])
    (h : ∀ i, i < x.length → pat.isPrefixOf ((x ++ pat ++ z).drop i) = false) :
    replaceFirst (x ++ pat ++ z) pat rep = x ++ rep ++ z := by
  have hmain : ∀ i, i < x.length → pat.isPrefixOf ((x ++ (pat ++ z)).drop i) = false := by
    intro i hi
    have := h i hi
    simpa [List.append_assoc] using this
  have := replaceFirst_at_key_assoc x z pat rep hpat hmain
  simpa [List.append_assoc] using this

/-- Digit characters evaluate back to their value and satisfy `isDigit`. -/
theorem digitChar_spec : ∀ d, d < 10 →
    (digitChar d).isDigit = true ∧ charVal (digitChar d) = d := by decide

/-- A digit character is none of the token-starting characters the parsers
dispatch on. -/
theorem digit_ne (c : Char) (h : c.isDigit = true) :
    c ≠ '"' ∧ c ≠ 't' ∧ c ≠ 'f' ∧ c ≠ '-' ∧ c ≠ '[' := by
  refine ⟨?_, ?_, ?_, ?_, ?_⟩ <;> (rintro rfl; revert h; decide)

/-- `digitsVal` over a snoc. -/
theorem digitsVal_concat (ds : List Char) (c : Char) :
    digitsVal (ds ++ [c]) = 10 * digitsVal ds + charVal c := by
  simp [digitsVal, List.foldl_append]

/-- The fuel-driven decimal rendering is correct whenever the fuel exceeds
the number. -/
theorem natToCharsAux_spec : ∀ (fuel n : Nat), n < fuel →
    natToCharsAux fuel n ≠ [] ∧ (∀ c ∈ natToCharsAux fuel n, c.isDigit = true) ∧
    digitsVal (natToCharsAux fuel n) = n := by
  intro fuel
  induction fuel with
  | zero => omega
  | succ f ih =>
      intro n hn
      by_cases h10 : n < 10
      · have hd := digitChar_spec n h10
        refine ⟨by simp [natToCharsAux, h10], ?_, ?_⟩
        · intro c hc
          simp [natToCharsAux, h10] at hc
          simpa [hc] using hd.1
        · simp [natToCharsAux, h10, digitsVal, hd.2]
      · have hrec : n / 10 < f := by omega
        obtain ⟨hne, hdig, hval⟩ := ih (n / 10) hrec
        have hd := digitChar_spec (n % 10) (by omega)
        refine ⟨by simp [natToCharsAux, h10], ?_, ?_⟩
        · intro c hc
          simp only [natToCharsAux, if_neg h10, List.mem_append, List.mem_singleton] at hc
          rcases hc with hc | hc
          · exact hdig c hc
          · simpa [hc] using hd.1
        · simp only [natToCharsAux, if_neg h10]
          rw [digitsVal_concat, hval, hd.2]
          omega

/-- The decimal rendering of a natural number: nonempty, all digits, and
evaluating back to the number. -/
theorem natToChars_spec (n : Nat) :
    natToChars n ≠ [] ∧ (∀ c ∈ natToChars n, c.isDigit = true) ∧
    digitsVal (natToChars n) = n :=
  natToCharsAux_spec (n + 1) n (Nat.lt_succ_self n)

/-- Reading a string body stops at the first quote. -/
theorem parseStrBody_append (s rest : List Char) (h : '"' ∉ s) :
    parseStrBody (s ++ '"' :: rest) = some (s, rest) := by
  induction s with
  | nil => simp [parseStrBody]
  | cons c cs ih =>
      simp only [List.mem_cons, not_or] at h
      have hc : ¬ c = '"' := fun hc => h.1 hc.symm
      simp [parseStrBody, hc, ih h.2]

/-- Taking digits consumes exactly a leading all-digit run. -/
theorem takeDigits_append (ds rest : List Char)
    (hds : ∀ c ∈ ds, c.isDigit = true) (hrest : noDigitHead rest) :
    takeDigits (ds ++ rest) = (ds, rest) := by
  induction ds with
  | nil =>
      cases rest with
      | nil => rfl
      | cons c cs =>
          have : c.isDigit = false := hrest
          simp [takeDigits, this]
  | cons c cs ih =>
      have hc : c.isDigit = true := hds c (List.mem_cons_self c cs)
      have := ih (fun x hx => hds x (List.mem_cons_of_mem c hx))
      simp [takeDigits, hc, this]

/-- Equation: `parseNum` after a minus sign. -/
theorem parseNum_neg_eq (rest' : List Char) :
    parseNum ('-' :: rest')
      = (match takeDigits rest' with
         | ([], _) => none
         | (ds, r) => some (-(digitsVal ds : Int), r)) := by
  simp [parseNum]

/-- Equation: `parseNum` at a non-minus head. -/
theorem parseNum_pos_eq (c : Char) (rest' : List Char) (hc : c ≠ '-') :
    parseNum (c :: rest')
      = (match takeDigits (c :: rest') with
         | ([], _) => none
         | (ds, r) => some ((digitsVal ds : Int), r)) := by
  simp [parseNum, hc]

/-- Parsing the rendered integer back, up to a non-digit boundary. -/
theorem parseNum_render (n : Int) (rest : List Char) (hrest : noDigitHead rest) :
    parseNum (renderInt n ++ rest) = some (n, rest) := by
  by_cases hneg : n < 0
  · obtain ⟨hne, hdig, hval⟩ := natToChars_spec (-n).toNat
    obtain ⟨d, ds, hds⟩ : ∃ d ds, natToChars (-n).toNat = d :: ds := by
      cases hcase : natToChars (-n).toNat with
      | nil => exact absurd hcase hne
      | cons d ds => exact ⟨d, ds, rfl⟩
    have htake : takeDigits (d :: ds ++ rest) = (d :: ds, rest) := by
      have hd2 : ∀ c ∈ d :: ds, c.isDigit = true := by
        rw [← hds]
        exact hdig
      simpa using takeDigits_append (d :: ds) rest hd2 hrest
    have hrender : renderInt n ++ rest = '-' :: (d :: ds ++ rest) := by
      rw [show renderInt n = '-' :: natToChars (-n).toNat from if_pos hneg, hds]
      rfl
    rw [hrender, parseNum_neg_eq, htake]
    show some (-(digitsVal (d :: ds) : Int), rest) = some (n, rest)
    rw [hds] at hval
    rw [hval]
    have : -(((-n).toNat : Nat) : Int) = n := by omega
    rw [this]
  · obtain ⟨hne, hdig, hval⟩ := natToChars_spec n.toNat
    obtain ⟨d, ds, hds⟩ : ∃ d ds, natToChars n.toNat = d :: ds := by
      cases hcase : natToChars n.toNat with
      | nil => exact absurd hcase hne
      | cons d ds => exact ⟨d, ds, rfl⟩
    have hd : d.isDigit = true := by
      refine hdig d ?_
      simp [hds]
    have htake : takeDigits (d :: (ds ++ rest)) = (d :: ds, rest) := by
      have hd2 : ∀ c ∈ d :: ds, c.isDigit = true := by
        rw [← hds]
        exact hdig
      simpa using takeDigits_append (d :: ds) rest hd2 hrest
    have hrender : renderInt n ++ rest = d :: (ds ++ rest) := by
      rw [show renderInt n = natToChars n.toNat from if_neg hneg, hds]
      rfl
    rw [hrender, parseNum_pos_eq d (ds ++ rest) (digit_ne d hd).2.2.2.1, htake]
    show some ((digitsVal (d :: ds) : Int), rest) = some (n, rest)
    rw [hds] at hval
    rw [hval]
    have : ((n.toNat : Nat) : Int) = n := by omega
    rw [this]

/-- The rendered integer starts with a minus sign or a digit. -/
theorem renderInt_head (n : Int) :
    ∃ c cs, renderInt n = c :: cs ∧ (c = '-' ∨ c.isDigit = true) := by
  by_cases hneg : n < 0
  · exact ⟨'-', natToChars (-n).toNat, if_pos hneg, Or.inl rfl⟩
  · have hrender : renderInt n = natToChars n.toNat := if_neg hneg
    obtain ⟨hne, hdig, _⟩ := natToChars_spec n.toNat
    cases hcase : natToChars n.toNat with
    | nil => exact absurd hcase hne
    | cons d ds =>
        refine ⟨d, ds, by rw [hrender, hcase], Or.inr ?_⟩
        refine hdig d ?_
        simp [hcase]

/-- Equation: `parseAtom` at a head that opens no string or literal. -/
theorem parseAtom_other_eq (c : Char) (cs' : List Char)
    (h1 : c ≠ '"') (h2 : c ≠ 't') (h3 : c ≠ 'f') :
    parseAtom (c :: cs')
      = (match parseNum (c :: cs') with
         | none => none
         | some (nv, r) => some (.jnum nv, r)) := by
  simp [parseAtom, h1, h2, h3]

/-- Parsing an atom at a rendered integer yields that number. -/
theorem parseAtom_num (n : Int) (rest : List Char) (hrest : noDigitHead rest) :
    parseAtom (renderInt n ++ rest) = some (.jnum n, rest) := by
  obtain ⟨c, cs, hr, hc⟩ := renderInt_head n
  have hnum := parseNum_render n rest hrest
  rw [hr] at hnum
  rw [show (c :: cs) ++ rest = c :: (cs ++ rest) from rfl] at hnum
  have hq : c ≠ '"' := by
    rcases hc with rfl | hd
    · decide
    · exact (digit_ne c hd).1
  have ht : c ≠ 't' := by
    rcases hc with rfl | hd
    · decide
    · exact (digit_ne c hd).2.1
  have hf : c ≠ 'f' := by
    rcases hc with rfl | hd
    · decide
    · exact (digit_ne c hd).2.2.1
  rw [hr]
  rw [show (c :: cs) ++ rest = c :: (cs ++ rest) from rfl]
  rw [parseAtom_other_eq c (cs ++ rest) hq ht hf, hnum]

/-- Parsing an atom at a rendered string yields that string. -/
theorem parseAtom_str (s rest : List Char) (h : '"' ∉ s) :
    parseAtom ('"' :: s ++ '"' :: rest) = some (.jstr s, rest) := by
  have hbody := parseStrBody_append s rest h
  rw [show ('"' :: s) ++ '"' :: rest = '"' :: (s ++ '"' :: rest) from rfl]
  rw [show parseAtom ('"' :: (s ++ '"' :: rest))
      = (match parseStrBody (s ++ '"' :: rest) with
         | none => none
         | some (sv, r) => some (.jstr sv, r)) from by simp [parseAtom]]
  rw [hbody]

/-- Non-digit head established by evaluating the head character. -/
theorem noDigitHead_cons (c : Char) (cs : List Char) (h : c.isDigit = false) :
    noDigitHead (c :: cs) := h

/-- Parsing a value whose head opens no array reads an atom. -/
theorem parseVal_atom_of_head (f : Nat) (c : Char) (cs' : List Char) (a : JAtom)
    (r : List Char) (hc : c ≠ '[') (ha : parseAtom (c :: cs') = some (a, r)) :
    parseVal f (c :: cs') = some (.atom a, r) := by
  unfold parseVal
  split
  · next heq =>
      injection heq with h1 _
      exact absurd h1 hc
  · rw [ha]

/-- Parsing a value at a rendered integer. -/
theorem parseVal_num (f : Nat) (n : Int) (rest : List Char) (hrest : noDigitHead rest) :
    parseVal f (renderInt n ++ rest) = some (.atom (.jnum n), rest) := by
  obtain ⟨c, cs, hr, hc⟩ := renderInt_head n
  have hbr : c ≠ '[' := by
    rcases hc with rfl | hd
    · decide
    · exact (digit_ne c hd).2.2.2.2
  have ha := parseAtom_num n rest hrest
  rw [hr] at ha ⊢
  rw [show (c :: cs) ++ rest = c :: (cs ++ rest) from rfl] at ha ⊢
  exact parseVal_atom_of_head f c (cs ++ rest) _ _ hbr ha

/-- Parsing a value at a rendered string. -/
theorem parseVal_str (f : Nat) (s rest : List Char) (h : '"' ∉ s) :
    parseVal f ('"' :: s ++ '"' :: rest) = some (.atom (.jstr s), rest) :=
  parseVal_atom_of_head f '"' (s ++ '"' :: rest) _ _ (by decide)
    (parseAtom_str s rest h)

/-- Parsing one rendered item consumes exactly its object. -/
theorem parseFlat_item (f : Nat) (n : Int) (rest : List Char) :
    parseFlat (f + 1) (renderItem n ++ rest) = some (itemFlat n, rest) := by
  have ha : parseAtom (renderInt n ++ '\x7d' :: rest) = some (.jnum n, '\x7d' :: rest) :=
    parseAtom_num n ('\x7d' :: rest) (noDigitHead_cons _ _ rfl)
  have e1 : "\x7b\"id\":".toList = ['\x7b', '"', 'i', 'd', '"', ':'] := rfl
  have e2 : "\x7d".toList = ['\x7d'] := rfl
  have hsplit : renderItem n ++ rest
      = '\x7b' :: '"' :: 'i' :: 'd' :: '"' :: ':' :: (renderInt n ++ '\x7d' :: rest) := by
    simp [renderItem, e1, e2, List.append_assoc]
  rw [hsplit]
  rw [show parseFlat (f + 1)
        ('\x7b' :: '"' :: 'i' :: 'd' :: '"' :: ':' :: (renderInt n ++ '\x7d' :: rest))
      = (match parseAtom (renderInt n ++ '\x7d' :: rest) with
         | none => none
         | some (a, cs4) =>
             match cs4 with
             | ',' :: cs5 =>
                 (match parseFlatFields f cs5 with
                  | none => none
                  | some (fs2, r2) => some ((['i', 'd'], a) :: fs2, r2))
             | '\x7d' :: cs5 => some ([(['i', 'd'], a)], cs5)
             | _ => none) from rfl]
  rw [ha]
  rfl

/-- Parsing the rendered nonempty item sequence. -/
theorem parseArrItems_core (xs : List Int) : ∀ (x : Int) (f : Nat) (rest : List Char),
    xs.length + 2 ≤ f →
    parseArrItems f (renderItemsCore (x :: xs) ++ ']' :: rest)
      = some ((x :: xs).map itemFlat, rest) := by
  induction xs with
  | nil =>
      intro x f rest hf
      obtain ⟨f2, rfl⟩ : ∃ f2, f = f2 + 2 := ⟨f - 2, by omega⟩
      rw [show renderItemsCore [x] = renderItem x from rfl]
      rw [show parseArrItems (f2 + 2) (renderItem x ++ ']' :: rest)
          = (match parseFlat (f2 + 1) (renderItem x ++ ']' :: rest) with
             | none => none
             | some (fl, cs1) =>
                 match cs1 with
                 | ',' :: cs2 =>
                     (match parseArrItems (f2 + 1) cs2 with
                      | none => none
                      | some (ys2, r2) => some (fl :: ys2, r2))
                 | ']' :: cs2 => some ([fl], cs2)
                 | _ => none) from rfl]
      rw [parseFlat_item f2 x (']' :: rest)]
      rfl
  | cons y ys ih =>
      intro x f rest hf
      obtain ⟨f2, rfl⟩ : ∃ f2, f = f2 + 1 := ⟨f - 1, by omega⟩
      have hcore : renderItemsCore (x :: y :: ys) ++ ']' :: rest
          = renderItem x ++ (',' :: (renderItemsCore (y :: ys) ++ ']' :: rest)) := by
        rw [show renderItemsCore (x :: y :: ys)
            = renderItem x ++ ',' :: renderItemsCore (y :: ys) from rfl]
        simp [List.append_assoc]
      rw [hcore]
      rw [show parseArrItems (f2 + 1)
            (renderItem x ++ (',' :: (renderItemsCore (y :: ys) ++ ']' :: rest)))
          = (match parseFlat f2
                (renderItem x ++ (',' :: (renderItemsCore (y :: ys) ++ ']' :: rest))) with
             | none => none
             | some (fl, cs1) =>
                 match cs1 with
                 | ',' :: cs2 =>
                     (match parseArrItems f2 cs2 with
                      | none => none
                      | some (ys2, r2) => some (fl :: ys2, r2))
                 | ']' :: cs2 => some ([fl], cs2)
                 | _ => none) from rfl]
      obtain ⟨f3, rfl⟩ : ∃ f3, f2 = f3 + 1 := ⟨f2 - 1, by omega⟩
      rw [parseFlat_item f3 x (',' :: (renderItemsCore (y :: ys) ++ ']' :: rest))]
      show (match parseArrItems (f3 + 1) (renderItemsCore (y :: ys) ++ ']' :: rest) with
            | none => none
            | some (ys2, r2) => some (itemFlat x :: ys2, r2))
          = some ((x :: y :: ys).map itemFlat, rest)
      rw [ih y (f3 + 1) rest (by simp at hf ⊢; omega)]
      rfl

/-- Parsing a value at the rendered collection array. -/
theorem parseVal_arr (f : Nat) (xs : List Int) (rest : List Char)
    (hf : xs.length + 2 ≤ f) :
    parseVal f (renderItems xs ++ rest) = some (.arr (xs.map itemFlat), rest) := by
  cases xs with
  | nil =>
      rw [show renderItems [] ++ rest = '[' :: ']' :: rest from rfl]
      rfl
  | cons x xs =>
      have harr := parseArrItems_core xs x f rest
        (by simp only [List.length_cons] at hf; omega)
      obtain ⟨t, ht⟩ : ∃ t, renderItemsCore (x :: xs) = renderItem x ++ t := by
        cases xs with
        | nil => exact ⟨[], by simp [renderItemsCore]⟩
        | cons y ys => exact ⟨',' :: renderItemsCore (y :: ys), rfl⟩
      have e1 : "\x7b\"id\":".toList = ['\x7b', '"', 'i', 'd', '"', ':'] := rfl
      have e2 : "\x7d".toList = ['\x7d'] := rfl
      have hshape : renderItems (x :: xs) ++ rest
          = '[' :: '\x7b' :: '"' :: 'i' :: 'd' :: '"' :: ':' ::
              (renderInt x ++ '\x7d' :: (t ++ ']' :: rest)) := by
        rw [show renderItems (x :: xs) = '[' :: (renderItemsCore (x :: xs) ++ [']'])
          from rfl, ht]
        simp [renderItem, e1, e2, List.append_assoc]
      have hshape2 : renderItemsCore (x :: xs) ++ ']' :: rest
          = '\x7b' :: '"' :: 'i' :: 'd' :: '"' :: ':' ::
              (renderInt x ++ '\x7d' :: (t ++ ']' :: rest)) := by
        rw [ht]
        simp [renderItem, e1, e2, List.append_assoc]
      rw [hshape]
      rw [show parseVal f ('[' :: '\x7b' :: '"' :: 'i' :: 'd' :: '"' :: ':' ::
              (renderInt x ++ '\x7d' :: (t ++ ']' :: rest)))
          = (match parseArrItems f ('\x7b' :: '"' :: 'i' :: 'd' :: '"' :: ':' ::
                (renderInt x ++ '\x7d' :: (t ++ ']' :: rest))) with
             | none => none
             | some (ys2, r2) => some (.arr ys2, r2)) from rfl]
      rw [← hshape2, harr]

/-- One non-final field of the top-level object. -/
theorem parseTopFields_comma (f : Nat) (k vcs bcs : List Char) (v : JVal)
    (fs : JTop) (r : List Char) (hk : '"' ∉ k)
    (hv : parseVal f vcs = some (v, ',' :: bcs))
    (hrec : parseTopFields f bcs = some (fs, r)) :
    parseTopFields (f + 1) ('"' :: (k ++ '"' :: ':' :: vcs)) = some ((k, v) :: fs, r) := by
  have hstr := parseStrBody_append k (':' :: vcs) hk
  rw [show parseTopFields (f + 1) ('"' :: (k ++ '"' :: ':' :: vcs))
      = (match parseStrBody (k ++ '"' :: ':' :: vcs) with
         | none => none
         | some (kk, cs2) =>
             match cs2 with
             | ':' :: cs3 =>
                 (match parseVal f cs3 with
                  | none => none
                  | some (vv, cs4) =>
                      match cs4 with
                      | ',' :: cs5 =>
                          (match parseTopFields f cs5 with
                           | none => none
                           | some (fs2, r2) => some ((kk, vv) :: fs2, r2))
                      | '\x7d' :: cs5 => some ([(kk, vv)], cs5)
                      | _ => none)
             | _ => none) from rfl]
  rw [hstr]
  show (match parseVal f vcs with
        | none => none
        | some (vv, cs4) =>
            match cs4 with
            | ',' :: cs5 =>
                (match parseTopFields f cs5 with
                 | none => none
                 | some (fs2, r2) => some ((k, vv) :: fs2, r2))
            | '\x7d' :: cs5 => some ([(k, vv)], cs5)
            | _ => none) = some ((k, v) :: fs, r)
  rw [hv]
  show (match parseTopFields f bcs with
        | none => none
        | some (fs2, r2) => some ((k, v) :: fs2, r2)) = some ((k, v) :: fs, r)
  rw [hrec]

/-- The final field of the top-level object, closing the body. -/
theorem parseTopFields_last (f : Nat) (k vcs bcs : List Char) (v : JVal)
    (hk : '"' ∉ k) (hv : parseVal f vcs = some (v, '\x7d' :: bcs)) :
    parseTopFields (f + 1) ('"' :: (k ++ '"' :: ':' :: vcs)) = some ([(k, v)], bcs) := by
  have hstr := parseStrBody_append k (':' :: vcs) hk
  rw [show parseTopFields (f + 1) ('"' :: (k ++ '"' :: ':' :: vcs))
      = (match parseStrBody (k ++ '"' :: ':' :: vcs) with
         | none => none
         | some (kk, cs2) =>
             match cs2 with
             | ':' :: cs3 =>
                 (match parseVal f cs3 with
                  | none => none
                  | some (vv, cs4) =>
                      match cs4 with
                      | ',' :: cs5 =>
                          (match parseTopFields f cs5 with
                           | none => none
                           | some (fs2, r2) => some ((kk, vv) :: fs2, r2))
                      | '\x7d' :: cs5 => some ([(kk, vv)], cs5)
                      | _ => none)
             | _ => none) from rfl]
  rw [hstr]
  show (match parseVal f vcs with
        | none => none
        | some (vv, cs4) =>
            match cs4 with
            | ',' :: cs5 =>
                (match parseTopFields f cs5 with
                 | none => none
                 | some (fs2, r2) => some ((k, vv) :: fs2, r2))
            | '\x7d' :: cs5 => some ([(k, vv)], cs5)
            | _ => none) = some ([(k, v)], bcs)
  rw [hv]
  rfl

/-- A rendered integer is nonempty. -/
theorem renderInt_length_pos (n : Int) : 1 ≤ (renderInt n).length := by
  obtain ⟨c, cs, hr, _⟩ := renderInt_head n
  rw [hr]
  simp

/-- The rendered item sequence is at least as long as the item list. -/
theorem renderItemsCore_length (xs : List Int) :
    xs.length ≤ (renderItemsCore xs).length := by
  induction xs with
  | nil => simp [renderItemsCore]
  | cons x xs ih =>
      have hx := renderInt_length_pos x
      have hl : ("\x7b\"id\":".toList).length = 6 := rfl
      have hl2 : ("\x7d".toList).length = 1 := rfl
      cases xs with
      | nil =>
          simp only [renderItemsCore, renderItem, List.length_append, hl, hl2,
            List.length_cons, List.length_nil]
          omega
      | cons y ys =>
          simp only [List.length_cons] at ih ⊢
          rw [show renderItemsCore (x :: y :: ys)
              = renderItem x ++ ',' :: renderItemsCore (y :: ys) from rfl]
          simp only [renderItem, List.length_append, hl, hl2, List.length_cons]
          omega

/-- The rendered body is long enough to fuel its own parse. -/
theorem renderBody_length (b : PageBody) :
    b.items.length + 4 ≤ (renderBody ("Items".toList) b).length := by
  have hc := renderItemsCore_length b.items
  have h1 : ("\x7b\"note\":\"".toList).length = 9 := rfl
  have h2 : ("\",\"".toList).length = 3 := rfl
  have h3 : ("\":".toList).length = 2 := rfl
  have h4 : (",\"offset\":".toList).length = 10 := rfl
  have h5 : (",\"limit\":".toList).length = 9 := rfl
  have h6 : (",\"total_count\":".toList).length = 15 := rfl
  have h7 : ("\x7d".toList).length = 1 := rfl
  have h8 : ("Items".toList).length = 5 := rfl
  simp only [renderBody, bodyPre, bodySuf, renderItems, List.length_append,
    List.length_cons, h1, h2, h3, h4, h5, h6, h7, h8]
  omega

/-- Parsing the rendered page body with the collection key already renamed
to `Items` recovers exactly its five top-level fields. -/
theorem parseBody_renderBody (b : PageBody) (hb : b.valid) :
    parseBody (renderBody ("Items".toList) b) = some (bodyTop ("Items".toList) b) := by
  obtain ⟨hq, hbs⟩ := hb
  obtain ⟨g, hg, hgi⟩ : ∃ g, (renderBody ("Items".toList) b).length + 1 = g + 5 ∧
      b.items.length ≤ g := by
    have := renderBody_length b
    exact ⟨(renderBody ("Items".toList) b).length - 4, by omega, by omega⟩
  have h5 : parseTopFields (g + 1)
      ('"' :: ("total_count".toList ++ '"' :: ':' :: (renderInt b.total ++ ['\x7d'])))
      = some ([("total_count".toList, .atom (.jnum b.total))], []) :=
    parseTopFields_last g ("total_count".toList) (renderInt b.total ++ ['\x7d']) []
      (.atom (.jnum b.total)) (by decide)
      (parseVal_num g b.total ['\x7d'] (noDigitHead_cons _ _ rfl))
  have h4 : parseTopFields (g + 2)
      ('"' :: ("limit".toList ++ '"' :: ':' :: (renderInt b.limit ++ ',' :: ('"' :: ("total_count".toList ++ '"' :: ':' :: (renderInt b.total ++ ['\x7d']))))))
      = some ([("limit".toList, .atom (.jnum b.limit)),
               ("total_count".toList, .atom (.jnum b.total))], []) :=
    parseTopFields_comma (g + 1) ("limit".toList) _ _ _ _ _ (by decide)
      (parseVal_num (g + 1) b.limit _ (noDigitHead_cons _ _ rfl)) h5
  have h3 : parseTopFields (g + 3)
      ('"' :: ("offset".toList ++ '"' :: ':' :: (renderInt b.offset ++ ',' :: ('"' :: ("limit".toList ++ '"' :: ':' :: (renderInt b.limit ++ ',' :: ('"' :: ("total_count".toList ++ '"' :: ':' :: (renderInt b.total ++ ['\x7d'])))))))))
      = some ([("offset".toList, .atom (.jnum b.offset)),
               ("limit".toList, .atom (.jnum b.limit)),
               ("total_count".toList, .atom (.jnum b.total))], []) :=
    parseTopFields_comma (g + 2) ("offset".toList) _ _ _ _ _ (by decide)
      (parseVal_num (g + 2) b.offset _ (noDigitHead_cons _ _ rfl)) h4
  have h2 : parseTopFields (g + 4)
      ('"' :: ("Items".toList ++ '"' :: ':' :: (renderItems b.items ++ ',' :: ('"' :: ("offset".toList ++ '"' :: ':' :: (renderInt b.offset ++ ',' :: ('"' :: ("limit".toList ++ '"' :: ':' :: (renderInt b.limit ++ ',' :: ('"' :: ("total_count".toList ++ '"' :: ':' :: (renderInt b.total ++ ['\x7d']))))))))))))
      = some ([("Items".toList, .arr (b.items.map itemFlat)),
               ("offset".toList, .atom (.jnum b.offset)),
               ("limit".toList, .atom (.jnum b.limit)),
               ("total_count".toList, .atom (.jnum b.total))], []) :=
    parseTopFields_comma (g + 3) ("Items".toList) _ _ _ _ _ (by decide)
      (parseVal_arr (g + 3) b.items _ (by omega)) h3
  have h1 : parseTopFields (g + 5)
      ('"' :: ("note".toList ++ '"' :: ':' :: ('"' :: b.note ++ '"' :: ',' :: ('"' :: ("Items".toList ++ '"' :: ':' :: (renderItems b.items ++ ',' :: ('"' :: ("offset".toList ++ '"' :: ':' :: (renderInt b.offset ++ ',' :: ('"' :: ("limit".toList ++ '"' :: ':' :: (renderInt b.limit ++ ',' :: ('"' :: ("total_count".toList ++ '"' :: ':' :: (renderInt b.total ++ ['\x7d'])))))))))))))))
      = some (bodyTop ("Items".toList) b, []) :=
    parseTopFields_comma (g + 4) ("note".toList) _ _ _ _ _ (by decide)
      (parseVal_str (g + 4) b.note _ hq) h2
  have hsplitB : renderBody ("Items".toList) b
      = '\x7b' :: ('"' :: ("note".toList ++ '"' :: ':' :: ('"' :: b.note ++ '"' :: ',' :: ('"' :: ("Items".toList ++ '"' :: ':' :: (renderItems b.items ++ ',' :: ('"' :: ("offset".toList ++ '"' :: ':' :: (renderInt b.offset ++ ',' :: ('"' :: ("limit".toList ++ '"' :: ':' :: (renderInt b.limit ++ ',' :: ('"' :: ("total_count".toList ++ '"' :: ':' :: (renderInt b.total ++ ['\x7d']))))))))))))))) := by
    have ea : "\x7b\"note\":\"".toList
        = ['\x7b', '"', 'n', 'o', 't', 'e', '"', ':', '"'] := rfl
    have eb : "\",\"".toList = ['"', ',', '"'] := rfl
    have ec : "\":".toList = ['"', ':'] := rfl
    have ed : ",\"offset\":".toList
        = [',', '"', 'o', 'f', 'f', 's', 'e', 't', '"', ':'] := rfl
    have ee : ",\"limit\":".toList = [',', '"', 'l', 'i', 'm', 'i', 't', '"', ':'] := rfl
    have ef : ",\"total_count\":".toList
        = [',', '"', 't', 'o', 't', 'a', 'l', '_', 'c', 'o', 'u', 'n', 't', '"', ':'] := rfl
    have eg : "\x7d".toList = ['\x7d'] := rfl
    have en : "note".toList = ['n', 'o', 't', 'e'] := rfl
    have ei : "Items".toList = ['I', 't', 'e', 'm', 's'] := rfl
    have eo : "offset".toList = ['o', 'f', 'f', 's', 'e', 't'] := rfl
    have el : "limit".toList = ['l', 'i', 'm', 'i', 't'] := rfl
    have et : "total_count".toList
        = ['t', 'o', 't', 'a', 'l', '_', 'c', 'o', 'u', 'n', 't'] := rfl
    simp only [renderBody, bodyPre, bodySuf, ea, eb, ec, ed, ee, ef, eg, en, ei, eo,
      el, et, List.append_assoc, List.cons_append, List.nil_append]
  rw [hsplitB] at hg ⊢
  rw [show parseBody ('\x7b' :: ('"' :: ("note".toList ++ '"' :: ':' :: ('"' :: b.note ++ '"' :: ',' :: ('"' :: ("Items".toList ++ '"' :: ':' :: (renderItems b.items ++ ',' :: ('"' :: ("offset".toList ++ '"' :: ':' :: (renderInt b.offset ++ ',' :: ('"' :: ("limit".toList ++ '"' :: ':' :: (renderInt b.limit ++ ',' :: ('"' :: ("total_count".toList ++ '"' :: ':' :: (renderInt b.total ++ ['\x7d']))))))))))))))))
      = (match parseTopFields (('\x7b' :: ('"' :: ("note".toList ++ '"' :: ':' :: ('"' :: b.note ++ '"' :: ',' :: ('"' :: ("Items".toList ++ '"' :: ':' :: (renderItems b.items ++ ',' :: ('"' :: ("offset".toList ++ '"' :: ':' :: (renderInt b.offset ++ ',' :: ('"' :: ("limit".toList ++ '"' :: ':' :: (renderInt b.limit ++ ',' :: ('"' :: ("total_count".toList ++ '"' :: ':' :: (renderInt b.total ++ ['\x7d'])))))))))))))))).length + 1)
              ('"' :: ("note".toList ++ '"' :: ':' :: ('"' :: b.note ++ '"' :: ',' :: ('"' :: ("Items".toList ++ '"' :: ':' :: (renderItems b.items ++ ',' :: ('"' :: ("offset".toList ++ '"' :: ':' :: (renderInt b.offset ++ ',' :: ('"' :: ("limit".toList ++ '"' :: ':' :: (renderInt b.limit ++ ',' :: ('"' :: ("total_count".toList ++ '"' :: ':' :: (renderInt b.total ++ ['\x7d']))))))))))))))) with
         | some (top, []) => some top
         | _ => none) from rfl]
  rw [hg, h1]

/-- Decoding one parsed item. -/
theorem decodeProject_itemFlat (n : Int) : decodeProject (itemFlat n) = some (projOf n) := rfl

/-- Decoding the parsed item list. -/
theorem decodeItems_map (xs : List Int) :
    decodeItems (xs.map itemFlat) = some (xs.map projOf) := by
  induction xs with
  | nil => rfl
  | cons x xs ih => simp [decodeItems, decodeProject_itemFlat, ih]

/-- Go struct filling on the parsed body recovers items and pagination. -/
theorem unmarshal_bodyTop (b : PageBody) :
    unmarshalApiResp (bodyTop ("Items".toList) b)
      = some { Items := b.items.map projOf,
               pagination := { Offset := b.offset, Limit := b.limit, Total := b.total } } := by
  have hd := decodeItems_map b.items
  show ((match decodeItems (b.items.map itemFlat), (some b.offset : Option Int),
            (some b.limit : Option Int), (some b.total : Option Int) with
        | some its, some o, some l, some tt =>
            some { Items := its, pagination := { Offset := o, Limit := l, Total := tt } }
        | _, _, _, _ => none) : Option (ApiResponse Project))
      = some { Items := b.items.map projOf,
               pagination := { Offset := b.offset, Limit := b.limit, Total := b.total } }
  rw [hd]


/-- C7: for every well-formed page body (of the modelled canonical family)
whose collection key text first occurs at the collection key itself,
`DecodeResp` succeeds and the decoded page carries exactly the body's
items and its offset, limit and total_count — re-deriving the pagination
metadata reproduces the original values. -/
theorem DecodeResp_roundtrip (key : List Char) (b : PageBody) (hb : b.valid)
    (hk : key ≠ [])
    (hfirst : ∀ i, i < (bodyPre b).length →
      key.isPrefixOf ((renderBody key b).drop i) = false) :
    DecodeResp key (renderBody key b)
      = some { Items := b.items.map projOf,
               pagination := { Offset := b.offset, Limit := b.limit, Total := b.total } } := by
  have hrepl : replaceFirst (renderBody key b) key ("Items".toList)
      = renderBody ("Items".toList) b :=
    replaceFirst_at_key (bodyPre b) (bodySuf b) key ("Items".toList) hk hfirst
  unfold DecodeResp
  rw [hrepl, parseBody_renderBody b hb]
  show unmarshalApiResp (bodyTop ("Items".toList) b) = _
  exact unmarshal_bodyTop b

/-- Witness for C7: the concrete projects body with note `hello` and items
1, 2 decodes to those two projects with offset 0, limit 25, total 110. -/
theorem DecodeResp_roundtrip_witness :
    DecodeResp ("projects".toList) (renderBody ("projects".toList) roundTripBody)
      = some { Items := [projOf 1, projOf 2],
               pagination := { Offset := 0, Limit := 25, Total := 110 } } :=
  DecodeResp_roundtrip ("projects".toList) roundTripBody (by decide) (by decide)
    (by decide)

/-- C8: a well-formed page body whose `note` value contains the text
`projects` before the `projects` collection key is corrupted by the
textual key substitution: `DecodeResp` succeeds but returns an empty item
list (the substitution consumed its single replacement inside the string
value, so the real collection key was never renamed and Go drops it as an
unknown field), while the body holds one item. -/
theorem DecodeResp_substitution_fragile :
    DecodeResp ("projects".toList) (renderBody ("projects".toList) fragileBody)
      = some { Items := [], pagination := { Offset := 0, Limit := 25, Total := 110 } } ∧
    fragileBody.items.map projOf = [projOf 7] ∧ projOf 7 ∉ ([] : List Project) := by
  decide


/-- Length bound of the decimal rendering. -/
theorem natToCharsAux_length : ∀ (fuel n k : Nat), n < fuel → 1 ≤ k → n < 10 ^ k →
    (natToCharsAux fuel n).length ≤ k := by
  intro fuel
  induction fuel with
  | zero => omega
  | succ f ih =>
      intro n k hn hk hpow
      by_cases h10 : n < 10
      · simp [natToCharsAux, h10]
        omega
      · obtain ⟨j, rfl⟩ : ∃ j, k = j + 1 := ⟨k - 1, by omega⟩
        have hj : 1 ≤ j := by
          by_contra hcon
          have : j = 0 := by omega
          subst this
          simp at hpow
          omega
        have hdiv : n / 10 < 10 ^ j := by
          rw [Nat.div_lt_iff_lt_mul (by omega)]
          calc n < 10 ^ (j + 1) := hpow
            _ = 10 ^ j * 10 := by rw [pow_succ]
        have hrec := ih (n / 10) j (by omega) hj hdiv
        simp only [natToCharsAux, if_neg h10, List.length_append, List.length_cons,
          List.length_nil]
        omega

/-- Length bound of `natToChars`. -/
theorem natToChars_length (n k : Nat) (hk : 1 ≤ k) (hpow : n < 10 ^ k) :
    (natToChars n).length ≤ k :=
  natToCharsAux_length (n + 1) n k (Nat.lt_succ_self n) hk hpow

/-- Leading zeros do not change the value of a digit string. -/
theorem digitsVal_replicate_zero (k : Nat) (ds : List Char) :
    digitsVal (List.replicate k '0' ++ ds) = digitsVal ds := by
  induction k with
  | zero => simp
  | succ j ih =>
      rw [List.replicate_succ, List.cons_append]
      show digitsVal ('0' :: (List.replicate j '0' ++ ds)) = digitsVal ds
      rw [show digitsVal ('0' :: (List.replicate j '0' ++ ds))
          = List.foldl (fun a c => 10 * a + charVal c) (10 * 0 + charVal '0')
              (List.replicate j '0' ++ ds) from rfl]
      rw [show 10 * 0 + charVal '0' = 0 from rfl]
      exact ih

/-- Padded numbers are all digits. -/
theorem padNat_digits (w n : Nat) : ∀ c ∈ padNat w n, c.isDigit = true := by
  intro c hc
  rcases List.mem_append.mp hc with hz | hd
  · have : c = '0' := List.eq_of_mem_replicate hz
    subst this
    decide
  · exact (natToChars_spec n).2.1 c hd

/-- Padded numbers evaluate to the number. -/
theorem digitsVal_padNat (w n : Nat) : digitsVal (padNat w n) = n := by
  unfold padNat
  rw [digitsVal_replicate_zero]
  exact (natToChars_spec n).2.2

/-- The padded rendering has exactly the requested width when it fits. -/
theorem padNat_length (w n : Nat) (h : (natToChars n).length ≤ w) :
    (padNat w n).length = w := by
  simp only [padNat, List.length_append, List.length_replicate]
  omega

/-- A four-element list destructures. -/
theorem list_len_four (l : List Char) (h : l.length = 4) :
    ∃ a b c d, l = [a, b, c, d] := by
  rcases l with _ | ⟨a, _ | ⟨b, _ | ⟨c, _ | ⟨d, _ | ⟨e, t⟩⟩⟩⟩⟩ <;>
    first
    | exact ⟨a, b, c, d, rfl⟩
    | simp at h

/-- A two-element list destructures. -/
theorem list_len_two (l : List Char) (h : l.length = 2) :
    ∃ a b, l = [a, b] := by
  rcases l with _ | ⟨a, _ | ⟨b, _ | ⟨c, t⟩⟩⟩ <;>
    first
    | exact ⟨a, b, rfl⟩
    | simp at h

/-- The marshal/parse round trip for four-digit years. -/
theorem Date_parse_format (y : Int) (m day : Nat)
    (hv : Date.validDate ⟨y, m, day⟩) (h0 : 0 ≤ y) (h4 : y ≤ 9999) :
    Date.UnmarshalJSON (Date.MarshalJSON ⟨y, m, day⟩) = some ⟨y, m, day⟩ := by
  obtain ⟨hm1, hm2, hd1, hd2⟩ := hv
  have hpow4 : (10 : Nat) ^ 4 = 10000 := by norm_num
  have hpow2 : (10 : Nat) ^ 2 = 100 := by norm_num
  have hylen : (padNat 4 y.toNat).length = 4 :=
    padNat_length 4 y.toNat (natToChars_length y.toNat 4 (by omega) (by omega))
  have hmlen : (padNat 2 m).length = 2 :=
    padNat_length 2 m (natToChars_length m 2 (by omega) (by simp at hm2 ⊢; omega))
  have hdaybound : day < 100 := by
    have : daysInMonth y m ≤ 31 := by
      unfold daysInMonth
      split
      · split <;> omega
      · split <;> omega
    simp at hd2
    omega
  have hdlen : (padNat 2 day).length = 2 :=
    padNat_length 2 day (natToChars_length day 2 (by omega) (by omega))
  obtain ⟨y1, y2, y3, y4, hy⟩ := list_len_four _ hylen
  obtain ⟨m1, m2, hm⟩ := list_len_two _ hmlen
  obtain ⟨d1, d2, hd⟩ := list_len_two _ hdlen
  have hydig := padNat_digits 4 y.toNat
  have hmdig := padNat_digits 2 m
  have hddig := padNat_digits 2 day
  rw [hy] at hydig
  rw [hm] at hmdig
  rw [hd] at hddig
  have hy1 : y1.isDigit = true := hydig y1 (by simp)
  have hy2 : y2.isDigit = true := hydig y2 (by simp)
  have hy3 : y3.isDigit = true := hydig y3 (by simp)
  have hy4 : y4.isDigit = true := hydig y4 (by simp)
  have hm1d : m1.isDigit = true := hmdig m1 (by simp)
  have hm2d : m2.isDigit = true := hmdig m2 (by simp)
  have hd1d : d1.isDigit = true := hddig d1 (by simp)
  have hd2d : d2.isDigit = true := hddig d2 (by simp)
  have hyval : digitsVal [y1, y2, y3, y4] = y.toNat := by
    rw [← hy]
    exact digitsVal_padNat 4 y.toNat
  have hmval : digitsVal [m1, m2] = m := by
    rw [← hm]
    exact digitsVal_padNat 2 m
  have hdval : digitsVal [d1, d2] = day := by
    rw [← hd]
    exact digitsVal_padNat 2 day
  have hformat : formatDate ⟨y, m, day⟩
      = y1 :: y2 :: y3 :: y4 :: '-' :: m1 :: m2 :: '-' :: d1 :: d2 :: [] := by
    have hyy : formatYear y = padNat 4 y.toNat := if_neg (by omega)
    simp [formatDate, hyy, hy, hm, hd]
  have hy1q : ¬ (y1 = '"') := (digit_ne y1 hy1).1
  have hd2q : ¬ (d2 = '"') := (digit_ne d2 hd2d).1
  have htrim : trimQuotes (Date.MarshalJSON ⟨y, m, day⟩)
      = y1 :: y2 :: y3 :: y4 :: '-' :: m1 :: m2 :: '-' :: d1 :: d2 :: [] := by
    show trimQuotes ('"' :: formatDate ⟨y, m, day⟩ ++ ['"']) = _
    rw [hformat]
    simp [trimQuotes, List.dropWhile, hy1q, hd2q]
  show parseDate (trimQuotes (Date.MarshalJSON ⟨y, m, day⟩)) = _
  rw [htrim]
  simp only [parseDate, hy1, hy2, hy3, hy4, hm1d, hm2d, hd1d, hd2d, Bool.and_self,
    if_true, hyval, hmval, hdval]
  rw [if_pos]
  · rw [Int.toNat_of_nonneg h0]
  · refine ⟨hm1, hm2, hd1, ?_⟩
    rw [Int.toNat_of_nonneg h0]
    exact hd2

/-- C10, counterexample: the valid calendar date 10000-01-02 (representable
as a Go `time.Time`) marshals to `"10000-01-02"`, whose unmarshal fails —
the layout `2006` consumes exactly four digits, leaving `0-01-02` against
the literal `-`. -/
theorem Date_roundtrip_cex :
    Date.validDate ⟨10000, 1, 2⟩ ∧
    Date.UnmarshalJSON (Date.MarshalJSON ⟨10000, 1, 2⟩) = none := by
  decide

/-- C10 as amended: for every valid calendar date whose year lies in the
four-digit range 0..9999, `MarshalJSON` succeeds (it is total),
`UnmarshalJSON` of its output succeeds, the resulting date has the same
year, month and day, and the `String` renderings agree. -/
theorem Date_roundtrip (d : Date) (hv : d.validDate) (h0 : 0 ≤ d.year)
    (h4 : d.year ≤ 9999) :
    Date.UnmarshalJSON (Date.MarshalJSON d) = some d ∧
    (Date.UnmarshalJSON (Date.MarshalJSON d)).map formatDate
      = some (formatDate d) := by
  obtain ⟨y, m, day⟩ := d
  have hmain := Date_parse_format y m day hv h0 h4
  exact ⟨hmain, by rw [hmain]; rfl⟩

/-- Witness for C10 as amended, at 2024-03-15. -/
theorem Date_roundtrip_witness :
    Date.UnmarshalJSON (Date.MarshalJSON ⟨2024, 3, 15⟩) = some ⟨2024, 3, 15⟩ ∧
    (Date.UnmarshalJSON (Date.MarshalJSON ⟨2024, 3, 15⟩)).map formatDate
      = some (formatDate ⟨2024, 3, 15⟩) :=
  Date_roundtrip ⟨2024, 3, 15⟩ (by decide) (by decide) (by decide)

end Redmine
